import Mathlib

/-!
# uwrap: Unix-domain sockets with descriptor passing

A shallow embedding of `src/uwrap.cc` (namespace `uwrap`): the result types, the
one-shot worker slot `ThreadWork`, the shared socket wrapper `UWrap` with its two
roles `UServerWrap` and `USocketWrap`, and the control-message handling of
`_write` and `readLoop`.

Conventions of the embedding.

* The C++ object, its `uv_poll_t` and the history of what it did form one record,
  `World`. Every call that leaves the program (a system call, a libuv call) is
  appended to `World.trace`; the calls whose result the code inspects take that
  result from `World.tape`, the list of outcomes the environment will produce.
* `callback` is the hand-over to the JavaScript function. What that function does
  in return (it may call back into the object before it returns) is the parameter
  `sink : Handler` of every operation.
* The two `while` loops of the poll handlers are driven by fuel; `none` means the
  loop was still running when the fuel ran out.
* `assert` is taken as compiled out (a release build defines `NDEBUG`), so the guards
  that follow the assertions decide.
* Constants and layouts that come from the system headers are the fields of `Abi`.
* Where the source leaves defined behaviour the run ends there: a store past the end
  of the control buffer in `_write`, and a libuv call on a `uv_poll_t` that
  `uv_poll_init` never initialised (`uvInit` is false). The operation sets
  `World.fault` and returns without doing anything further.
* `PATH_LINE()` is written `uwrap.cc:` followed by the line of the call.
-/

namespace uwrap

/-! ## Values of the target system -/

/-- Constants of the system headers the source is compiled against. -/
structure Abi where
  /-- Size of `sockaddr_un::sun_path`. -/
  sunPathSize : Nat
  EAGAIN : Int
  EWOULDBLOCK : Int
  SOL_SOCKET : Int
  SCM_RIGHTS : Int
  /-- Size of `size_t`: the width of `cmsg_len` and the unit of `CMSG_ALIGN`. -/
  sizeT : Nat
deriving DecidableEq, Repr

/-- Linux on x86-64 with glibc. -/
def linux64 : Abi :=
  { sunPathSize := 108, EAGAIN := 11, EWOULDBLOCK := 11, SOL_SOCKET := 1, SCM_RIGHTS := 1,
    sizeT := 8 }

/-- The libuv event bit `UV_READABLE`. -/
def UV_READABLE : Nat := 1

/-- The libuv event bit `UV_WRITABLE`. -/
def UV_WRITABLE : Nat := 2

/-- Reduction of an integer to the range of a 32-bit signed `int`. -/
def wrapInt32 (x : Int) : Int := (x + 2 ^ 31) % 2 ^ 32 - 2 ^ 31

/-! ## Result types -/

/-- The struct `ErrorResult`. -/
structure ErrorResult where
  syscall : String
  message : String
  path : String
  code : Int
deriving DecidableEq, Repr

namespace ErrorResult

/-- The constructor `ErrorResult()`. -/
def ok : ErrorResult := { syscall := "", message := "", path := "", code := 0 }

/-- The constructor `ErrorResult(string m)`. -/
def ofMessage (m : String) : ErrorResult :=
  { syscall := "", message := m, path := "", code := -1 }

/-- The constructor `ErrorResult(int c, string sc, string m, string p)`. -/
def ofSyscall (c : Int) (sc m p : String) : ErrorResult :=
  { syscall := sc, message := m, path := p, code := if c = 0 then -1 else c }

/-- The method `isError`. -/
def isError (r : ErrorResult) : Bool := r.code != 0

/-- The three constructor overloads of `ErrorResult`, as data. -/
inductive Ctor where
  | ok
  | message (m : String)
  | syscall (c : Int) (sc m p : String)
deriving DecidableEq, Repr

/-- The result a constructor call builds. -/
def build : Ctor → ErrorResult
  | .ok => ErrorResult.ok
  | .message m => ofMessage m
  | .syscall c sc m p => ofSyscall c sc m p

end ErrorResult

/-- What `makeError` hands to JavaScript: `Nan::Error` or `Nan::ErrnoException`. -/
inductive JsError where
  | plain (message : String)
  | errno (code : Int) (syscall message path : String)
deriving DecidableEq, Repr

/-- The struct `SocketResult`. The inherited error constructors leave `descriptor`
unset; the embedding stores 0 there, the code never reads it on an error. -/
structure SocketResult where
  err : ErrorResult
  descriptor : Int
deriving DecidableEq, Repr

namespace SocketResult

/-- The constructor `SocketResult()`. -/
def empty : SocketResult := { err := ErrorResult.ok, descriptor := 0 }

/-- The inherited constructor taking a message. -/
def ofMessage (m : String) : SocketResult := { err := ErrorResult.ofMessage m, descriptor := 0 }

/-- The inherited constructor taking an errno and the call that failed. -/
def ofSyscall (c : Int) (sc m p : String) : SocketResult :=
  { err := ErrorResult.ofSyscall c sc m p, descriptor := 0 }

end SocketResult

/-- The struct `BoolResult`. The inherited error constructors leave `ok` unset; the
embedding stores `false` there, the code never reads it on an error. -/
structure BoolResult where
  err : ErrorResult
  ok : Bool
deriving DecidableEq, Repr

namespace BoolResult

/-- The constructor `BoolResult(bool v)`. -/
def ofBool (v : Bool) : BoolResult := { err := ErrorResult.ok, ok := v }

/-- The inherited constructor taking an errno and the call that failed. -/
def ofSyscall (c : Int) (sc m p : String) : BoolResult :=
  { err := ErrorResult.ofSyscall c sc m p, ok := false }

end BoolResult

/-! ## Receive buffer size -/

/-- The size of the receive buffer chosen at the top of an iteration of `readLoop`:
`avail` starts at 1024 and, when `ioctl(FIONREAD)` returns a non-negative value, becomes
`min(max(avail + 64, 256), 16348)` for the count the call stored. -/
def readBufferSize (ioctlRet queried : Int) : Int :=
  if ioctlRet ≥ 0 then min (max (wrapInt32 (queried + 64)) 256) 16348 else 1024

/-! ## Control messages

The macros of `<sys/socket.h>` as glibc defines them, over a control buffer given as
a list of bytes. A header is addressed by its offset in the buffer; `none` is `NULL`.
The header is `size_t cmsg_len; int cmsg_level; int cmsg_type;`, little-endian. -/

/-- Little-endian read of `n` bytes at `off`; a byte outside the buffer reads as 0. -/
def readLE (buf : List Nat) (off : Nat) : Nat → Nat
  | 0 => 0
  | n + 1 => buf.getD off 0 + 256 * readLE buf (off + 1) n

/-- Little-endian write of the low `n` bytes of `v` at `off`. -/
def writeLE (buf : List Nat) (off : Nat) (v : Nat) : Nat → List Nat
  | 0 => buf
  | n + 1 => writeLE (buf.set off (v % 256)) (off + 1) (v / 256) n

/-- The bit pattern of a 32-bit `int`. -/
def toU32 (x : Int) : Nat := (x % 2 ^ 32).toNat

/-- The 32-bit `int` with the given bit pattern. -/
def ofU32 (n : Nat) : Int := if n < 2 ^ 31 then (n : Int) else (n : Int) - 2 ^ 32

/-- The value of `sizeof(struct cmsghdr)`. -/
def sizeofCmsghdr (A : Abi) : Nat := A.sizeT + 8

/-- The value of `CMSG_ALIGN(len)`: `len` rounded up to a multiple of `sizeof(size_t)`. -/
def CMSG_ALIGN (A : Abi) (len : Nat) : Nat := (len + A.sizeT - 1) / A.sizeT * A.sizeT

/-- The value of `CMSG_SPACE(len)`. -/
def CMSG_SPACE (A : Abi) (len : Nat) : Nat := CMSG_ALIGN A len + CMSG_ALIGN A (sizeofCmsghdr A)

/-- The value of `CMSG_LEN(len)`. -/
def CMSG_LEN (A : Abi) (len : Nat) : Nat := CMSG_ALIGN A (sizeofCmsghdr A) + len

/-- The offset `CMSG_DATA(c)` of the payload of the header at `c`. -/
def CMSG_DATA (A : Abi) (c : Nat) : Nat := c + sizeofCmsghdr A

/-- The field `cmsg_len` of the header at `c`. -/
def cmsg_len (A : Abi) (buf : List Nat) (c : Nat) : Nat := readLE buf c A.sizeT

/-- The field `cmsg_level` of the header at `c`. -/
def cmsg_level (A : Abi) (buf : List Nat) (c : Nat) : Int := ofU32 (readLE buf (c + A.sizeT) 4)

/-- The field `cmsg_type` of the header at `c`. -/
def cmsg_type (A : Abi) (buf : List Nat) (c : Nat) : Int :=
  ofU32 (readLE buf (c + A.sizeT + 4) 4)

/-- The value of `CMSG_FIRSTHDR` for a control buffer of `controllen` bytes. -/
def CMSG_FIRSTHDR (A : Abi) (controllen : Nat) : Option Nat :=
  if controllen ≥ sizeofCmsghdr A then some 0 else none

/-- The value of `CMSG_NXTHDR` (glibc `__cmsg_nxthdr`) for the header at `c` of the
control buffer `buf`, whose length is `msg_controllen`. -/
def CMSG_NXTHDR (A : Abi) (buf : List Nat) (c : Nat) : Option Nat :=
  if cmsg_len A buf c < sizeofCmsghdr A then none
  else
    let next := c + CMSG_ALIGN A (cmsg_len A buf c)
    if next + sizeofCmsghdr A > buf.length
        ∨ next + CMSG_ALIGN A (cmsg_len A buf next) > buf.length then none
    else some next

/-- The header loop of `USocketWrap::_write` (lines 539-544): every header the
iteration reaches is filled with one descriptor, `fds[fdi]`. The header itself lies
inside the buffer (`CMSG_FIRSTHDR` and `CMSG_NXTHDR` see to that); the four bytes that
line 543 copies to `CMSG_DATA(c)` need not, and the result is `none` when they do not, as
it is when the fuel runs out. -/
def fillControl (A : Abi) (fds : List Int) : Nat → List Nat → Option Nat → Nat → Option (List Nat)
  | _, buf, none, _ => some buf
  | 0, _, some _, _ => none
  | fuel + 1, buf, some c, fdi =>
    if CMSG_DATA A c + 4 ≤ buf.length then
      let buf1 := writeLE buf (c + A.sizeT) (toU32 A.SOL_SOCKET) 4
      let buf2 := writeLE buf1 (c + A.sizeT + 4) (toU32 A.SCM_RIGHTS) 4
      let buf3 := writeLE buf2 c (CMSG_LEN A 4) A.sizeT
      let buf4 := writeLE buf3 (CMSG_DATA A c) (toU32 (fds.getD fdi 0)) 4
      fillControl A fds fuel buf4 (CMSG_NXTHDR A buf4 c) (fdi + 1)
    else none

/-- The control data `USocketWrap::_write` builds for `fds` (lines 533-545): empty when
there is no descriptor, else a zeroed buffer of `CMSG_SPACE(fds.size() * sizeof(int))`
bytes run through the header loop; `none` when the loop stores past the end of the
buffer. -/
def writeControl (A : Abi) (fds : List Int) : Option (List Nat) :=
  if fds.isEmpty then some []
  else
    let ctrlBuf := List.replicate (CMSG_SPACE A (fds.length * 4)) 0
    fillControl A fds (ctrlBuf.length + 1) ctrlBuf (CMSG_FIRSTHDR A ctrlBuf.length) 0

/-- The header loop of `USocketWrap::readLoop` (lines 405-411): the descriptor of every
`SOL_SOCKET`/`SCM_RIGHTS` header is appended to `fds`. -/
def collectFds (A : Abi) (buf : List Nat) : Nat → Option Nat → List Int → Option (List Int)
  | _, none, fds => some fds
  | 0, some _, _ => none
  | fuel + 1, some c, fds =>
    let fds1 :=
      if cmsg_level A buf c = A.SOL_SOCKET ∧ cmsg_type A buf c = A.SCM_RIGHTS then
        fds ++ [ofU32 (readLE buf (CMSG_DATA A c) 4)]
      else fds
    collectFds A buf fuel (CMSG_NXTHDR A buf c) fds1

/-- The descriptors `readLoop` grabs from received control data. -/
def readControl (A : Abi) (control : List Nat) : Option (List Int) :=
  collectFds A control (control.length + 1) (CMSG_FIRSTHDR A control.length) []

/-- A JavaScript value, as far as the wrapper builds one. An array lists its slots, a
slot never assigned is `none`. -/
inductive JsValue where
  | undefined
  | buffer (bytes : List Nat)
  | array (slots : List (Option Int))
deriving DecidableEq, Repr

/-- The effect of `t->Set(i, v)` on the slots of a JavaScript array. -/
def arraySet (t : List (Option Int)) (i : Nat) (v : Int) : List (Option Int) :=
  if i < t.length then t.set i (some v)
  else t ++ List.replicate (i - t.length) none ++ [some v]

/-- The conversion of the grabbed descriptors to the value `jsfds` (lines 419-425):
`undefined` for no descriptor, else a new array of `fds.size()` slots on which
`Set(0, fds[i])` runs for every `i`. -/
def toJsFds (fds : List Int) : JsValue :=
  if fds.length > 0 then
    .array (fds.foldl (fun t fd => arraySet t 0 fd) (List.replicate fds.length none))
  else .undefined

/-- The descriptor value of the `data` event of a receiver whose `recvmsg` returns, as
its control data, exactly the control data `_write` built for `fds`. -/
def fdRoundTrip (A : Abi) (fds : List Int) : Option JsValue :=
  ((writeControl A fds).bind (readControl A)).map toJsFds

/-! ## The object and its environment -/

/-- The two subclasses of `UWrap`. -/
inductive Role where
  | server
  | peer
deriving DecidableEq, Repr

/-- The events handed to the JavaScript function: the name passed to `callback` with
its arguments. -/
inductive Event where
  | error (e : JsError)
  | listening (fd : Int)
  | accept (fd : Int)
  | connect (fd : Int)
  | data (buffer fds : JsValue)
  | drain
deriving DecidableEq, Repr

/-- The calls that leave the program. -/
inductive Sys where
  | socket | unlink | bind | listen | connect | accept | close | shutdown
  | ioctl | recvmsg | sendmsg | newBuffer
  | uv_queue_work | uv_poll_init | uv_poll_start | uv_poll_stop | uv_close
deriving DecidableEq, Repr

/-- One entry of the history: a call that left the program with its main argument, a
`sendmsg` with the message it sent, an event handed to the JavaScript function, or an
event handed to a handle that `jscallback.Reset()` had emptied. -/
inductive Effect where
  | sys (call : Sys) (arg : Int)
  | send (fd : Int) (data : List Nat) (control : List Nat)
  | callback (e : Event)
  | dropped (e : Event)
deriving DecidableEq, Repr

/-- The event a history entry handed to the JavaScript function, if it did. -/
def Effect.event : Effect → Option Event
  | .callback e => some e
  | _ => none

/-- What the environment answers to one call: the return value, the value of `errno`
after it, and what the call stored through its pointers (`ioctl`: the byte count;
`recvmsg`: the payload and the control data). -/
structure Outcome where
  ret : Int := 0
  errno : Int := 0
  avail : Int := 0
  data : List Nat := []
  control : List Nat := []
deriving DecidableEq, Repr

instance : Inhabited Outcome := ⟨{}⟩

/-- The closures handed to `socketWork`. -/
inductive Work where
  | listen (path : List Nat) (backlog : Int)
  | connect (path : List Nat)
deriving DecidableEq, Repr

/-- The struct `ThreadWork<SocketResult>`: `busy` is `handle.data != nullptr`, `work`
holds the closure pair of the task, `value` the result of the work. -/
structure ThreadWork where
  busy : Bool := false
  work : Option Work := none
  value : SocketResult := SocketResult.empty
deriving DecidableEq, Repr

/-- The object (`handle`, `paused`, `corked`, `jscallback`, `socketWork`, its dynamic
type `role`), the state of its `uvpoll` in the loop (`uvActive`: started and not
stopped since; `uvEvents`: the mask it was last started with; `uvInit`: the last
`uv_poll_init` on it succeeded), the outcomes the environment will produce, the history,
and `fault`: the run has left defined behaviour and ended. -/
structure World where
  role : Role
  handle : Int
  paused : Bool
  corked : Bool
  jscallback : Bool
  socketWork : ThreadWork
  uvActive : Bool
  uvEvents : Nat
  tape : List Outcome
  trace : List Effect
  uvInit : Bool
  fault : Bool
deriving DecidableEq, Repr

/-- What the JavaScript function does to the object when it is called with an event. -/
abbrev Handler := Event → World → World

/-- The handler that returns without calling back into the object. -/
def passive : Handler := fun _ w => w

namespace World

/-- Append an entry to the history. -/
def log (w : World) (x : Effect) : World := { w with trace := w.trace ++ [x] }

/-- A call whose result the code inspects: logged, answered by the head of the tape. -/
def sys (w : World) (call : Sys) (arg : Int) : Outcome × World :=
  (w.tape.headD default, { w with tape := w.tape.tail, trace := w.trace ++ [.sys call arg] })

/-- The events handed to the JavaScript function, in order. -/
def events (w : World) : List Event := w.trace.filterMap Effect.event

end World

/-- The constructor `UWrap()` followed by `New` storing the callback: `handle` is -1,
`paused` and `corked` are not initialised and hold whatever the memory held, and neither
is `uvpoll`. -/
def UWrap.new (role : Role) (paused corked : Bool) (tape : List Outcome) : World :=
  { role := role, handle := -1, paused := paused, corked := corked, jscallback := true,
    socketWork := {}, uvActive := false, uvEvents := 0, tape := tape, trace := [],
    uvInit := false, fault := false }

/-- The method `UWrap::callback`: `Nan::MakeCallback` on `jscallback`. The function runs
(`sink`) when the handle holds one; an emptied handle runs nothing. -/
def callback (sink : Handler) (e : Event) (w : World) : World :=
  if w.jscallback then sink e (w.log (.callback e)) else w.log (.dropped e)

/-- The methods `pollWrites` of the two roles. -/
def pollWrites (w : World) : Bool :=
  match w.role with
  | .server => false
  | .peer => w.corked

/-- The mask `events` that `setupPoll` computes. -/
def interest (w : World) : Nat :=
  (if !w.paused then UV_READABLE else 0) ||| (if pollWrites w then UV_WRITABLE else 0)

/-- A libuv call on a `uvpoll` that was never initialised: the call is made and the run
ends in it. -/
def uvFault (w : World) (call : Sys) (arg : Int) : World :=
  { w.log (.sys call arg) with fault := true }

/-- The method `UWrap::setupPoll`. -/
def setupPoll (sink : Handler) (w : World) : World :=
  let events := interest w
  if events = 0 then
    if w.uvInit then
      let r := w.sys .uv_poll_stop 0
      if r.1.ret < 0 then
        callback sink (.error (.errno (-r.1.errno) "uv_poll_stop" "setupPoll" "uwrap.cc:200")) r.2
      else { r.2 with uvActive := false }
    else uvFault w .uv_poll_stop 0
  else
    if w.uvInit then
      let r := w.sys .uv_poll_start events
      if r.1.ret < 0 then
        callback sink (.error (.errno (-r.1.errno) "uv_poll_start" "setupPoll" "uwrap.cc:206"))
          r.2
      else { r.2 with uvActive := true, uvEvents := events }
    else uvFault w .uv_poll_start events

/-- The method `UWrap::_pause`. -/
def _pause (sink : Handler) (w : World) : World :=
  if w.paused || w.handle == -1 then w
  else setupPoll sink { w with paused := true }

/-- The method `UWrap::_resume`. -/
def _resume (sink : Handler) (w : World) : World :=
  if !w.paused || w.handle == -1 then w
  else setupPoll sink { w with paused := false }

/-- The method `UWrap::_close`. With a descriptor stored and a `uvpoll` that was never
initialised (the state a failed `uv_poll_init` leaves), `uv_poll_stop` is called on it and
the run ends there, before `::close`. -/
def _close (sink : Handler) (w : World) : World :=
  let w0 := { w with jscallback := false }
  if w0.handle != -1 then
    if w0.uvInit then
      let r := w0.sys .uv_poll_stop 0
      let w1 :=
        if r.1.ret < 0 then
          callback sink (.error (.errno (-r.1.errno) "uv_poll_stop" "close" "uwrap.cc:242")) r.2
        else { r.2 with uvActive := false }
      let w2 := { w1.log (.sys .uv_close 0) with uvActive := false }
      let w3 := w2.log (.sys .close w2.handle)
      { w3 with handle := -1 }
    else uvFault w0 .uv_poll_stop 0
  else w0

/-! ## The worker slot -/

/-- The `while` loop of `UServerWrap::poll` (lines 282-296). -/
def acceptLoop (A : Abi) (sink : Handler) : Nat → World → Option World
  | 0, w => if !w.paused && w.handle ≥ 0 then none else some w
  | fuel + 1, w =>
    if !w.paused && w.handle ≥ 0 then
      let r := w.sys .accept w.handle
      let rfd := r.1.ret
      if rfd < 0 then
        let err := r.1.errno
        if err = A.EAGAIN ∨ err = A.EWOULDBLOCK then some r.2
        else
          some (callback sink (.error (.errno err "accept" "UServer socket" "uwrap.cc:290"))
            (_pause sink r.2))
      else acceptLoop A sink fuel (callback sink (.accept rfd) r.2)
    else some w

/-- The method `UServerWrap::poll`. -/
def UServerWrap.poll (A : Abi) (sink : Handler) (fuel : Nat) (status : Int) (_events : Nat)
    (w : World) : Option World :=
  if status < 0 then
    some (callback sink (.error (.errno (-status) "poll" "UServer socket" "uwrap.cc:278")) w)
  else acceptLoop A sink fuel w

/-! ## The peer role -/

/-- The method `USocketWrap::readLoop`. The result is `none` when the fuel ran out or
the header loop over the control data did not end. -/
def USocketWrap.readLoop (A : Abi) (sink : Handler) : Nat → World → Option (Bool × World)
  | 0, w => if !w.paused && w.handle ≥ 0 then none else some (true, w)
  | fuel + 1, w =>
    if !w.paused && w.handle ≥ 0 then
      let q := w.sys .ioctl w.handle
      let avail := readBufferSize q.1.ret q.1.avail
      let r := q.2.sys .recvmsg avail
      let res := r.1.ret
      if res < 0 then
        let err := r.1.errno
        if err = A.EAGAIN ∨ err = A.EWOULDBLOCK then some (true, r.2)
        else
          some (false, callback sink (.error (.errno err "recvmesg" "USocket" "uwrap.cc:400"))
            (_pause sink r.2))
      else
        match readControl A (r.1.control.take (CMSG_SPACE A (64 * 4))) with
        | none => none
        | some fds =>
          let b := if res = 0 then (default, r.2) else r.2.sys .newBuffer res
          let buffer :=
            if res = 0 ∨ b.1.ret < 0 then JsValue.undefined
            else JsValue.buffer (r.1.data.take res.toNat)
          USocketWrap.readLoop A sink fuel (callback sink (.data buffer (toJsFds fds)) b.2)
    else some (true, w)

/-- The method `USocketWrap::poll`. -/
def USocketWrap.poll (A : Abi) (sink : Handler) (fuel : Nat) (status : Int) (events : Nat)
    (w : World) : Option World :=
  if status < 0 then
    some (callback sink (.error (.errno (-status) "poll" "USocket" "uwrap.cc:437")) w)
  else
    match (if events &&& UV_READABLE ≠ 0 then USocketWrap.readLoop A sink fuel w
           else some (true, w)) with
    | none => none
    | some (false, w1) => some w1
    | some (true, w1) =>
      if events &&& UV_WRITABLE ≠ 0 ∧ w1.corked then
        some (callback sink .drain (setupPoll sink { w1 with corked := false }))
      else some w1

/-- The method `USocketWrap::_adopt`. The descriptor is stored before `uv_poll_init` is
tried and stays stored when it fails. -/
def USocketWrap._adopt (sink : Handler) (fd : Int) (w : World) : World :=
  let w1 := { w with handle := fd, paused := true, corked := false }
  let r := w1.sys .uv_poll_init w1.handle
  if r.1.ret < 0 then
    callback sink (.error (.errno (-r.1.errno) "uv_poll_init" "USocket" "uwrap.cc:507"))
      { r.2 with uvInit := false }
  else { r.2 with uvActive := false, uvInit := true }

/-- The method `USocketWrap::_write`. When the header loop stores past the end of
`ctrlBuf` the run ends there, before `sendmsg`; the value paired with the faulted state is
never delivered. -/
def USocketWrap._write (A : Abi) (sink : Handler) (data : List Nat) (fds : List Int)
    (w : World) : BoolResult × World :=
  match writeControl A fds with
  | none => (BoolResult.ofBool false, { w with fault := true })
  | some control =>
    let r := (w.log (.send w.handle data control)).sys .sendmsg w.handle
    if r.1.ret ≥ 0 then (BoolResult.ofBool true, r.2)
    else
      let err := r.1.errno
      if err ≠ A.EAGAIN ∧ err ≠ A.EWOULDBLOCK then
        (BoolResult.ofSyscall err "sendmsg" "USocketWrap" "uwrap.cc:553", r.2)
      else (BoolResult.ofBool false, setupPoll sink { r.2 with corked := true })

/-- The method `USocketWrap::_shutdown`. -/
def USocketWrap._shutdown (sink : Handler) (w : World) : World :=
  setupPoll sink { w.log (.sys .shutdown w.handle) with corked := false }

/-! ## Handlers that call back into the object -/

/-- The methods JavaScript can call on the object from inside a handler. -/
inductive Call where
  | pause
  | resume
  | close
  | write (data : List Nat) (fds : List Int)
  | shutdown
  | adopt (fd : Int)
deriving DecidableEq, Repr

/-- One method call. `write`, `shutdown` and `adopt` exist on the peer only. -/
def runCall (A : Abi) (sink : Handler) (c : Call) (w : World) : World :=
  match c with
  | .pause => _pause sink w
  | .resume => _resume sink w
  | .close => _close sink w
  | .write data fds =>
    match w.role with
    | .peer => (USocketWrap._write A sink data fds w).2
    | .server => w
  | .shutdown =>
    match w.role with
    | .peer => USocketWrap._shutdown sink w
    | .server => w
  | .adopt fd =>
    match w.role with
    | .peer => USocketWrap._adopt sink fd w
    | .server => w

/-- The handler that answers every event with the method calls `script` lists for it
(the script sees the object and its history). The calls run with the same handler
installed, nested `depth` levels deep at most; at the innermost level the handler
returns at once. -/
def reenter (A : Abi) (script : World → Event → List Call) : Nat → Handler
  | 0 => fun _ w => w
  | depth + 1 => fun e w =>
    (script w e).foldl (fun acc c => runCall A (reenter A script depth) c acc) w

/-! ## Scenarios and measures used by the statements -/

/-- The number of `::close` calls in a history. -/
def closeCount (t : List Effect) : Nat :=
  t.countP fun x => match x with
    | .sys .close _ => true
    | _ => false

/-- A peer that adopts descriptor 5, resumes, is closed and is then shut down; every
call of the environment succeeds. -/
def shutdownAfterClose : World :=
  USocketWrap._shutdown passive
    (_close passive (_resume passive (USocketWrap._adopt passive 5 (UWrap.new .peer true false []))))

/-- A peer that adopted 12345, which is no open descriptor: `uv_poll_init` failed with
`EBADF`, the `error` event was handed over and the peer kept the descriptor. -/
def failedAdopt : World :=
  USocketWrap._adopt passive 12345 (UWrap.new .peer true false [{ ret := -9, errno := 9 }])

/-- The handler script makes no call to `pause` and none to `close`. -/
def NeverPausesOrCloses (script : World → Event → List Call) : Prop :=
  ∀ w e, Call.pause ∉ script w e ∧ Call.close ∉ script w e

/-- The events `accept` and `data`. -/
def Event.isDelivery : Event → Bool
  | .accept _ => true
  | .data _ _ => true
  | _ => false

/-- The history entries that hand over an `accept` or a `data` event. -/
def Effect.delivers : Effect → Bool
  | .callback e => e.isDelivery
  | .dropped e => e.isDelivery
  | _ => false

/-- The history of `w2` is the history of `w1` followed by entries none of which hands
over an `accept` or a `data` event. -/
def Extends (w1 w2 : World) : Prop :=
  ∃ ext, w2.trace = w1.trace ++ ext ∧ ∀ x ∈ ext, Effect.delivers x = false

/-- The handler adds no `accept` and no `data` event to the history, whatever the event
and the state it is called with. -/
def QuietHandler (h : Handler) : Prop := ∀ e w, Extends w (h e w)

/-- What the environment answers during one successful receive of the read loop: to
`ioctl`, to `recvmsg`, and to the creation of the buffer. -/
structure Receive where
  q : Outcome
  r : Outcome
  b : Outcome
deriving DecidableEq, Repr

/-- The answers a receive takes from the tape: the buffer is created only when bytes were
received. -/
def Receive.tape (m : Receive) : List Outcome :=
  if m.r.ret = 0 then [m.q, m.r] else [m.q, m.r, m.b]

/-- The receive succeeds and the header loop over its control data ends. -/
def Receive.ok (A : Abi) (m : Receive) : Prop :=
  0 ≤ m.r.ret ∧ ∃ fds, readControl A (m.r.control.take (CMSG_SPACE A (64 * 4))) = some fds

/-- C9. A result built by the success constructor has code 0 and is no error; one built
from a message, or from a system call with any code (0 is stored as -1), has a code
other than 0 and is an error; so the code is 0 exactly for the success constructor, and
a positive errno is kept as given. -/
theorem errorResult_code_invariant :
    (ErrorResult.ok.code = 0 ∧ ErrorResult.ok.isError = false)
    ∧ (∀ m, (ErrorResult.ofMessage m).code ≠ 0 ∧ (ErrorResult.ofMessage m).isError = true)
    ∧ (∀ c sc m p, (ErrorResult.ofSyscall c sc m p).code ≠ 0
        ∧ (ErrorResult.ofSyscall c sc m p).isError = true)
    ∧ (∀ sc m p, (ErrorResult.ofSyscall 0 sc m p).code = -1)
    ∧ (∀ v : ErrorResult.Ctor, (ErrorResult.build v).code = 0 ↔ v = .ok)
    ∧ (∀ v : ErrorResult.Ctor, (ErrorResult.build v).isError = false ↔ v = .ok)
    ∧ (∀ c sc m p, 0 < c → (ErrorResult.ofSyscall c sc m p).code = c) := by
  have hsys : ∀ c : Int, (if c = 0 then (-1 : Int) else c) ≠ 0 := by
    intro c
    split <;> omega
  refine ⟨⟨rfl, rfl⟩, ?_, ?_, ?_, ?_, ?_, ?_⟩
  · intro m
    simp [ErrorResult.ofMessage, ErrorResult.isError]
  · intro c sc m p
    simp [ErrorResult.ofSyscall, ErrorResult.isError, hsys c]
  · intro sc m p
    simp [ErrorResult.ofSyscall]
  · intro v
    cases v with
    | ok => simp [ErrorResult.build, ErrorResult.ok]
    | message m => simp [ErrorResult.build, ErrorResult.ofMessage]
    | syscall c sc m p => simp [ErrorResult.build, ErrorResult.ofSyscall, hsys c]
  · intro v
    cases v with
    | ok => simp [ErrorResult.build, ErrorResult.ok, ErrorResult.isError]
    | message m => simp [ErrorResult.build, ErrorResult.ofMessage, ErrorResult.isError]
    | syscall c sc m p =>
      simp [ErrorResult.build, ErrorResult.ofSyscall, ErrorResult.isError, hsys c]
  · intro c sc m p hc
    have : c ≠ 0 := by omega
    simp [ErrorResult.ofSyscall, this]

/-! ## Receive buffer size: theorems -/

theorem wrapInt32_of_range (x : Int) (hlo : -2 ^ 31 ≤ x) (hhi : x < 2 ^ 31) :
    wrapInt32 x = x := by
  unfold wrapInt32
  omega

/-- C10. When the byte-count query fails the buffer size is 1024; when it succeeds the
size is `max(q + 64, 256)` capped at the upper bound of the code (with `q + 64` taken as
a 32-bit `int`), and in every case the size lies between 256 and 16384. -/
theorem readBufferSize_range (ret q : Int) :
    (ret < 0 → readBufferSize ret q = 1024)
    ∧ (0 ≤ ret → readBufferSize ret q = min (max (wrapInt32 (q + 64)) 256) 16348)
    ∧ (0 ≤ ret → -2 ^ 31 ≤ q → q + 64 < 2 ^ 31 →
        readBufferSize ret q = min (max (q + 64) 256) 16348)
    ∧ 256 ≤ readBufferSize ret q ∧ readBufferSize ret q ≤ 16384 := by
  refine ⟨?_, ?_, ?_, ?_, ?_⟩
  · intro h
    have : ¬ ret ≥ 0 := by omega
    simp [readBufferSize, this]
  · intro h
    simp [readBufferSize, h]
  · intro h hlo hhi
    have hw : wrapInt32 (q + 64) = q + 64 := wrapInt32_of_range _ (by omega) hhi
    simp [readBufferSize, h, hw]
  · unfold readBufferSize
    split <;> omega
  · unfold readBufferSize
    split <;> omega

theorem readBufferSize_range_witness :
    readBufferSize 0 100 = min (max (100 + 64) 256) 16348
    ∧ readBufferSize (-1) 100 = 1024 :=
  ⟨(readBufferSize_range 0 100).2.2.1 (by decide) (by decide) (by decide),
    (readBufferSize_range (-1) 100).1 (by decide)⟩

/-! ## Close: theorems -/

theorem close_of_absent (sink : Handler) (w : World) (h : w.handle = -1) :
    _close sink w = { w with jscallback := false } := by
  simp [_close, h]

theorem close_handle (sink : Handler) (w : World) (hi : w.handle = -1 ∨ w.uvInit = true) :
    (_close sink w).handle = -1 := by
  unfold _close
  by_cases h : w.handle = -1
  · simp [h]
  · have hu : w.uvInit = true := hi.resolve_left h
    simp [h, hu]

theorem close_jscallback (sink : Handler) (w : World) : (_close sink w).jscallback = false := by
  unfold _close
  by_cases h : w.handle = -1
  · simp [h]
  · cases hu : w.uvInit
    · simp [h, hu, uvFault, World.log]
    · by_cases hr : (w.tape.head?.getD default).ret < 0 <;>
        simp [h, hu, hr, World.sys, World.log, callback]

theorem close_closeCount (sink : Handler) (w : World) (hi : w.handle = -1 ∨ w.uvInit = true) :
    closeCount (_close sink w).trace
      = closeCount w.trace + (if w.handle = -1 then 0 else 1) := by
  unfold _close
  by_cases h : w.handle = -1
  · simp [h]
  · have hu : w.uvInit = true := hi.resolve_left h
    by_cases hr : (w.tape.head?.getD default).ret < 0 <;>
      simp [h, hu, hr, World.sys, World.log, callback, closeCount, List.countP_append,
        List.countP_cons]

/-- On every state without a descriptor, and on every state whose `uvpoll` was
initialised, close leaves the descriptor absent, a second close changes nothing, and the
two together close the descriptor once when there was one. -/
theorem close_of_initialised (sink sink2 : Handler) (w : World)
    (hi : w.handle = -1 ∨ w.uvInit = true) :
    (_close sink w).handle = -1
    ∧ _close sink2 (_close sink w) = _close sink w
    ∧ closeCount (_close sink2 (_close sink w)).trace
        = closeCount w.trace + (if w.handle = -1 then 0 else 1) := by
  have h2 : _close sink2 (_close sink w) = _close sink w := by
    rw [close_of_absent sink2 _ (close_handle sink w hi)]
    have := close_jscallback sink w
    generalize _close sink w = v at this
    cases v
    simp_all
  refine ⟨close_handle sink w hi, h2, ?_⟩
  rw [h2]
  exact close_closeCount sink w hi

/-- C7, the code at the failing input. A peer adopts 12345, which is no open descriptor:
`uv_poll_init` fails, the `error` event is emitted and the descriptor stays stored with a
`uvpoll` that was never initialised. Close on that state calls `uv_poll_stop` on it and
the run ends there: the descriptor is still stored and `::close` was never called. -/
theorem close_after_failed_adopt :
    failedAdopt.handle = 12345
    ∧ failedAdopt.uvInit = false
    ∧ failedAdopt.events = [.error (.errno (-9) "uv_poll_init" "USocket" "uwrap.cc:507")]
    ∧ (_close passive failedAdopt).fault = true
    ∧ (_close passive failedAdopt).handle = 12345
    ∧ closeCount (_close passive failedAdopt).trace = 0
    ∧ (_close passive failedAdopt).trace
        = [.sys .uv_poll_init 12345,
           .callback (.error (.errno (-9) "uv_poll_init" "USocket" "uwrap.cc:507")),
           .sys .uv_poll_stop 0] := by
  decide

/-! ## Path length: theorems -/

/-- C8, the code at the failing input. A peer that adopted a descriptor, resumed and was
closed has no descriptor and is not polled; `shutdown` on it starts the poll again, so
afterwards the descriptor is absent and the socket is registered for `UV_READABLE`. -/
theorem shutdown_after_close_starts_poll :
    (_close passive (_resume passive
        (USocketWrap._adopt passive 5 (UWrap.new .peer true false [])))).handle = -1
    ∧ (_close passive (_resume passive
        (USocketWrap._adopt passive 5 (UWrap.new .peer true false [])))).uvActive = false
    ∧ shutdownAfterClose.handle = -1
    ∧ shutdownAfterClose.uvActive = true
    ∧ shutdownAfterClose.trace
        = [.sys .uv_poll_init 5, .sys .uv_poll_start 1, .sys .uv_poll_stop 0, .sys .uv_close 0,
           .sys .close 5, .sys .shutdown (-1), .sys .uv_poll_start 1] := by
  decide

/-! ## Descriptor passing: theorems -/

theorem writeLE_four (buf : List Nat) (off v : Nat) :
    writeLE buf off v 4
      = (((buf.set off (v % 256)).set (off + 1) (v / 256 % 256)).set (off + 2)
          (v / 256 / 256 % 256)).set (off + 3) (v / 256 / 256 / 256 % 256) := by
  simp [writeLE]

theorem ofU32_bytes (a : Int) (hlo : -2 ^ 31 ≤ a) (hhi : a < 2 ^ 31) :
    ofU32 (toU32 a % 256 + 256 * (toU32 a / 256 % 256 + 256 * (toU32 a / 256 / 256 % 256
      + 256 * (toU32 a / 256 / 256 / 256 % 256 + 256 * 0)))) = a := by
  have hv : ((toU32 a : Nat) : Int) = a % 4294967296 := by
    unfold toU32
    norm_num
    omega
  have hlt : toU32 a < 4294967296 := by omega
  generalize toU32 a = v at hv hlt
  have hsum : v % 256 + 256 * (v / 256 % 256 + 256 * (v / 256 / 256 % 256
      + 256 * (v / 256 / 256 / 256 % 256 + 256 * 0))) = v := by omega
  rw [hsum]
  unfold ofU32
  norm_num at hlo hhi ⊢
  split <;> omega

theorem nxthdr_single (x y z t : Nat) :
    CMSG_NXTHDR linux64
      [20, 0, 0, 0, 0, 0, 0, 0, 1, 0, 0, 0, 1, 0, 0, 0, x, y, z, t, 0, 0, 0, 0] 0 = none := by
  simp [CMSG_NXTHDR, cmsg_len, readLE, linux64, sizeofCmsghdr, CMSG_ALIGN]

/-- The control data `_write` builds for two descriptors on Linux x86-64: 24 bytes holding
one record, which carries the first descriptor. -/
theorem writeControl_pair (a b : Int) :
    writeControl linux64 [a, b]
      = some [20, 0, 0, 0, 0, 0, 0, 0, 1, 0, 0, 0, 1, 0, 0, 0,
          toU32 a % 256, toU32 a / 256 % 256, toU32 a / 256 / 256 % 256,
          toU32 a / 256 / 256 / 256 % 256, 0, 0, 0, 0] := by
  generalize hv : toU32 a = v
  have hs : CMSG_SPACE linux64 (2 * 4) = 24 := by decide
  have hf : CMSG_FIRSTHDR linux64 24 = some 0 := by decide
  unfold writeControl
  simp only [List.isEmpty_cons, List.length_cons, List.length_nil, hs, List.length_replicate, hf,
    Bool.false_eq_true, if_false]
  have hb : CMSG_DATA linux64 0 + 4 ≤ (List.replicate 24 0).length := by decide
  rw [fillControl, if_pos hb]
  have h1 : writeLE (writeLE (writeLE (List.replicate 24 0) (0 + linux64.sizeT)
        (toU32 linux64.SOL_SOCKET) 4) (0 + linux64.sizeT + 4) (toU32 linux64.SCM_RIGHTS) 4) 0
        (CMSG_LEN linux64 4) linux64.sizeT
      = [20, 0, 0, 0, 0, 0, 0, 0, 1, 0, 0, 0, 1, 0, 0, 0, 0, 0, 0, 0, 0, 0, 0, 0] := by decide
  simp only [h1]
  have h2 : CMSG_DATA linux64 0 = 16 := rfl
  have h3 : [a, b].getD 0 0 = a := rfl
  simp only [h2, h3, hv, writeLE_four, List.set_cons_succ, List.set_cons_zero]
  rw [nxthdr_single, fillControl]

/-- The descriptors `readLoop` grabs from control data that holds one record. -/
theorem readControl_single (x y z t : Nat) :
    readControl linux64
        [20, 0, 0, 0, 0, 0, 0, 0, 1, 0, 0, 0, 1, 0, 0, 0, x, y, z, t, 0, 0, 0, 0]
      = some [ofU32 (x + 256 * (y + 256 * (z + 256 * (t + 256 * 0))))] := by
  have hf : CMSG_FIRSTHDR linux64 24 = some 0 := by decide
  unfold readControl
  simp only [List.length_cons, List.length_nil, hf]
  rw [collectFds, nxthdr_single, collectFds]
  have hl : cmsg_level linux64
      [20, 0, 0, 0, 0, 0, 0, 0, 1, 0, 0, 0, 1, 0, 0, 0, x, y, z, t, 0, 0, 0, 0] 0
      = linux64.SOL_SOCKET := by
    rfl
  have ht : cmsg_type linux64
      [20, 0, 0, 0, 0, 0, 0, 0, 1, 0, 0, 0, 1, 0, 0, 0, x, y, z, t, 0, 0, 0, 0] 0
      = linux64.SCM_RIGHTS := by
    rfl
  simp only [hl, ht, and_self, if_true]
  simp [CMSG_DATA, sizeofCmsghdr, linux64, readLE]

/-- The array `readLoop` builds from a non-empty list of descriptors: slot 0 holds the
last descriptor, every other slot is never assigned. -/
theorem foldl_arraySet_zero (fds : List Int) :
    ∀ (t : List (Option Int)), 0 < t.length → ∀ h : fds ≠ [],
      fds.foldl (fun t fd => arraySet t 0 fd) t = t.set 0 (some (fds.getLast h)) := by
  induction fds with
  | nil => intro t _ h; exact absurd rfl h
  | cons x rest ih =>
    intro t ht _
    have hx : arraySet t 0 x = t.set 0 (some x) := by simp [arraySet, ht]
    rw [List.foldl_cons, hx]
    by_cases hr : rest = []
    · subst hr
      simp
    · rw [ih (t.set 0 (some x)) (by simpa using ht) hr, List.getLast_cons hr]
      simp [List.set_set]

theorem toJsFds_of_ne_nil (fds : List Int) (h : fds ≠ []) :
    toJsFds fds = .array (some (fds.getLast h) :: List.replicate (fds.length - 1) none) := by
  have hl : 0 < fds.length := List.length_pos.mpr h
  unfold toJsFds
  rw [if_pos hl, foldl_arraySet_zero fds _ (by simpa using hl) h]
  obtain ⟨n, hn⟩ : ∃ n, fds.length = n + 1 := ⟨fds.length - 1, by omega⟩
  rw [hn]
  simp [List.replicate_succ]

/-- C1, the code at the failing input. On Linux x86-64 the control data `_write` builds
for two descriptors, handed unchanged to the header loop and the array conversion of
`readLoop`, yields an array of one entry, the first descriptor; the second is lost. -/
theorem write_pair_delivers_one (a b : Int) (hlo : -2 ^ 31 ≤ a) (hhi : a < 2 ^ 31) :
    fdRoundTrip linux64 [a, b] = some (.array [some a]) := by
  unfold fdRoundTrip
  rw [writeControl_pair, Option.some_bind, readControl_single, ofU32_bytes a hlo hhi]
  simp [toJsFds, arraySet]

theorem write_pair_delivers_one_witness :
    fdRoundTrip linux64 [5, 6] = some (.array [some 5]) :=
  write_pair_delivers_one 5 6 (by decide) (by decide)

theorem runCall_inert (A : Abi) (sink : Handler) (c : Call) (w : World)
    (hrole : w.role = .server) (hp : w.paused = false) (h1 : c ≠ .pause) (h2 : c ≠ .close) :
    runCall A sink c w = w := by
  cases c <;> simp_all [runCall, _resume]

theorem foldl_runCall_inert (A : Abi) (sink : Handler) (l : List Call) (w : World)
    (hrole : w.role = .server) (hp : w.paused = false)
    (h1 : Call.pause ∉ l) (h2 : Call.close ∉ l) :
    l.foldl (fun acc c => runCall A sink c acc) w = w := by
  induction l with
  | nil => rfl
  | cons c l ih =>
    have hc : runCall A sink c w = w :=
      runCall_inert A sink c w hrole hp
        (fun h => h1 (by simp [h])) (fun h => h2 (by simp [h]))
    rw [List.foldl_cons, hc]
    exact ih (fun h => h1 (List.mem_cons_of_mem _ h)) (fun h => h2 (List.mem_cons_of_mem _ h))

/-- A handler that never pauses or closes leaves a resumed server as it is. -/
theorem reenter_inert (A : Abi) (script : World → Event → List Call)
    (hs : NeverPausesOrCloses script) (depth : Nat) (e : Event) (w : World)
    (hrole : w.role = .server) (hp : w.paused = false) :
    reenter A script depth e w = w := by
  cases depth with
  | zero => rfl
  | succ n =>
    unfold reenter
    exact foldl_runCall_inert A _ _ w hrole hp (hs w e).1 (hs w e).2

theorem acceptLoop_drains (A : Abi) (sink : Handler)
    (hsink : ∀ e w, w.role = .server → w.paused = false → sink e w = w)
    (wb : Outcome) (hwb : wb.ret < 0) (herr : wb.errno = A.EAGAIN ∨ wb.errno = A.EWOULDBLOCK)
    (rest : List Outcome) :
    ∀ (oks : List Outcome) (fuel : Nat) (w : World), (∀ o ∈ oks, 0 ≤ o.ret) →
      oks.length < fuel → w.role = .server → 0 ≤ w.handle → w.paused = false →
      w.jscallback = true → w.tape = oks ++ wb :: rest →
      acceptLoop A sink fuel w
        = some { w with
            tape := rest,
            trace := w.trace
              ++ (oks.flatMap fun o => [.sys .accept w.handle, .callback (.accept o.ret)])
              ++ [.sys .accept w.handle] } := by
  intro oks
  induction oks with
  | nil =>
    intro fuel w _ hfuel _ hh hp _ htape
    obtain ⟨n, rfl⟩ : ∃ n, fuel = n + 1 := ⟨fuel - 1, by simp at hfuel; omega⟩
    simp [acceptLoop, hp, hh, World.sys, htape, hwb, herr]
  | cons o oks ih =>
    intro fuel w hok hfuel hrole hh hp hjs htape
    obtain ⟨n, rfl⟩ : ∃ n, fuel = n + 1 := ⟨fuel - 1, by simp at hfuel; omega⟩
    have ho : ¬ o.ret < 0 := by
      have := hok o (by simp)
      omega
    cases w with
    | mk role handle paused corked js sw ua ue tape trace ui fl =>
      simp only at hrole hh hp hjs htape
      subst hrole hp hjs htape
      have hstep : acceptLoop A sink (n + 1)
            { role := .server, handle := handle, paused := false, corked := corked,
              jscallback := true, socketWork := sw, uvActive := ua, uvEvents := ue,
              tape := o :: oks ++ wb :: rest, trace := trace, uvInit := ui, fault := fl }
          = acceptLoop A sink n
            { role := .server, handle := handle, paused := false, corked := corked,
              jscallback := true, socketWork := sw, uvActive := ua, uvEvents := ue,
              tape := oks ++ wb :: rest,
              trace := trace ++ [.sys .accept handle, .callback (.accept o.ret)],
              uvInit := ui, fault := fl } := by
        rw [acceptLoop]
        simp only [World.sys, callback, World.log]
        simp [hh, ho]
        rw [hsink _ _ rfl rfl]
      rw [hstep, ih n _ (fun x hx => hok x (List.mem_cons_of_mem _ hx))
        (by simp at hfuel; omega) rfl hh rfl rfl rfl]
      simp [List.flatMap_cons, List.append_assoc]

theorem filterMap_accepts (h : Int) (oks : List Outcome) :
    (oks.flatMap fun o => [Effect.sys .accept h, Effect.callback (.accept o.ret)]).filterMap
        Effect.event
      = oks.map fun o => Event.accept o.ret := by
  induction oks with
  | nil => rfl
  | cons o oks ih => simp [List.flatMap_cons, List.filterMap_cons, ih, Effect.event]

/-- C4. On a listening server that is not paused and whose handler never pauses or
closes it, a readiness notification with non-negative status in which `accept` succeeds
for the outcomes `oks` and then reports would-block returns, having emitted exactly the
`accept` events of the accepted descriptors, in order, and no other event; each `accept`
call is followed by its event, the last call is the one that would block, and the socket
is left open and not paused. -/
theorem accept_drains_fully (A : Abi) (script : World → Event → List Call) (depth : Nat)
    (hs : NeverPausesOrCloses script) (oks : List Outcome) (hok : ∀ o ∈ oks, 0 ≤ o.ret)
    (wb : Outcome) (hwb : wb.ret < 0) (herr : wb.errno = A.EAGAIN ∨ wb.errno = A.EWOULDBLOCK)
    (rest : List Outcome) (w : World) (hrole : w.role = .server) (hh : 0 ≤ w.handle)
    (hp : w.paused = false) (hjs : w.jscallback = true) (htape : w.tape = oks ++ wb :: rest)
    (status : Int) (hst : 0 ≤ status) (events fuel : Nat) (hfuel : oks.length < fuel) :
    ∃ w2, UServerWrap.poll A (reenter A script depth) fuel status events w = some w2
      ∧ w2 = { w with
          tape := rest,
          trace := w.trace
            ++ (oks.flatMap fun o => [.sys .accept w.handle, .callback (.accept o.ret)])
            ++ [.sys .accept w.handle] }
      ∧ w2.events = w.events ++ oks.map (fun o => Event.accept o.ret)
      ∧ (w2.events.drop w.events.length).length = oks.length
      ∧ w2.handle = w.handle ∧ w2.paused = false := by
  have hst2 : ¬ status < 0 := by omega
  have hloop := acceptLoop_drains A (reenter A script depth)
    (fun e v hr hpv => reenter_inert A script hs depth e v hr hpv) wb hwb herr rest oks fuel w
    hok hfuel hrole hh hp hjs htape
  refine ⟨_, ?_, rfl, ?_, ?_, rfl, hp⟩
  · simp [UServerWrap.poll, hst2, hloop]
  · simp [World.events, List.filterMap_append, filterMap_accepts, Effect.event]
  · simp [World.events, List.filterMap_append, filterMap_accepts, Effect.event]

theorem accept_drains_fully_witness :
    ∃ w2, UServerWrap.poll linux64 (reenter linux64 (fun _ _ => [.resume]) 1) 3 0 UV_READABLE
        { UWrap.new .server false false [{ ret := 7 }, { ret := 8 }, { ret := -1, errno := 11 }]
          with handle := 4 } = some w2
      ∧ w2.events = [.accept 7, .accept 8] ∧ w2.handle = 4 ∧ w2.paused = false := by
  obtain ⟨w2, h1, _, h3, _, h5, h6⟩ :=
    accept_drains_fully linux64 (fun _ _ => [.resume]) 1
      (by intro w e; simp) [{ ret := 7 }, { ret := 8 }] (by decide)
      { ret := -1, errno := 11 } (by decide) (by decide) []
      { UWrap.new .server false false [{ ret := 7 }, { ret := 8 }, { ret := -1, errno := 11 }]
        with handle := 4 }
      rfl (by decide) rfl rfl rfl 0 (by decide) UV_READABLE 3 (by decide)
  exact ⟨w2, h1, h3, h5, h6⟩

/-! ## Pause: theorems -/

theorem Extends.refl_ext (w : World) : Extends w w := ⟨[], by simp, by simp⟩

theorem Extends.of_trace_eq (w w2 : World) (h : w2.trace = w.trace) : Extends w w2 :=
  ⟨[], by simp [h], by simp⟩

theorem Extends.trans_ext {a b c : World} (h1 : Extends a b) (h2 : Extends b c) : Extends a c := by
  obtain ⟨e1, he1, hq1⟩ := h1
  obtain ⟨e2, he2, hq2⟩ := h2
  refine ⟨e1 ++ e2, by rw [he2, he1, List.append_assoc], ?_⟩
  intro x hx
  rcases List.mem_append.mp hx with h | h
  · exact hq1 x h
  · exact hq2 x h

theorem Extends.log_ext (w : World) (x : Effect) (hx : Effect.delivers x = false) :
    Extends w (w.log x) :=
  ⟨[x], rfl, by simpa using hx⟩

theorem Extends.sys_ext (w : World) (call : Sys) (arg : Int) : Extends w (w.sys call arg).2 :=
  ⟨[.sys call arg], rfl, by simp [Effect.delivers]⟩

theorem callback_extends (sink : Handler) (hq : QuietHandler sink) (e : Event)
    (he : e.isDelivery = false) (w : World) : Extends w (callback sink e w) := by
  unfold callback
  split
  · exact (Extends.log_ext w _ (by simpa [Effect.delivers] using he)).trans_ext (hq e _)
  · exact Extends.log_ext w _ (by simpa [Effect.delivers] using he)

theorem uvFault_extends (w : World) (call : Sys) (arg : Int) :
    Extends w (uvFault w call arg) :=
  ⟨[.sys call arg], rfl, by simp [Effect.delivers]⟩

theorem setupPoll_extends (sink : Handler) (hq : QuietHandler sink) (w : World) :
    Extends w (setupPoll sink w) := by
  unfold setupPoll
  simp only
  split
  · split
    · split
      · exact (Extends.sys_ext w _ _).trans_ext (callback_extends sink hq _ (by rfl) _)
      · exact (Extends.sys_ext w _ _).trans_ext (Extends.of_trace_eq _ _ rfl)
    · exact uvFault_extends w _ _
  · split
    · split
      · exact (Extends.sys_ext w _ _).trans_ext (callback_extends sink hq _ (by rfl) _)
      · exact (Extends.sys_ext w _ _).trans_ext (Extends.of_trace_eq _ _ rfl)
    · exact uvFault_extends w _ _

theorem pause_extends (sink : Handler) (hq : QuietHandler sink) (w : World) :
    Extends w (_pause sink w) := by
  unfold _pause
  split
  · exact Extends.refl_ext w
  · exact (Extends.of_trace_eq w _ rfl).trans_ext (setupPoll_extends sink hq _)

theorem resume_extends (sink : Handler) (hq : QuietHandler sink) (w : World) :
    Extends w (_resume sink w) := by
  unfold _resume
  split
  · exact Extends.refl_ext w
  · exact (Extends.of_trace_eq w _ rfl).trans_ext (setupPoll_extends sink hq _)

theorem close_extends (sink : Handler) (hq : QuietHandler sink) (w : World) :
    Extends w (_close sink w) := by
  have tail : ∀ v : World, Extends v
      { (({ v.log (.sys .uv_close 0) with uvActive := false } : World).log
          (.sys .close v.handle)) with handle := -1 } := by
    intro v
    exact ⟨[.sys .uv_close 0, .sys .close v.handle], by simp [World.log],
      by simp [Effect.delivers]⟩
  have h0 : Extends w (({ w with jscallback := false } : World).sys .uv_poll_stop 0).2 :=
    (Extends.of_trace_eq w _ rfl).trans_ext (Extends.sys_ext _ _ _)
  unfold _close
  simp only
  split
  · split
    · split
      · exact (h0.trans_ext (callback_extends sink hq _ (by rfl) _)).trans_ext (tail _)
      · exact (h0.trans_ext (Extends.of_trace_eq _ _ rfl)).trans_ext (tail _)
    · exact (Extends.of_trace_eq w _ rfl).trans_ext (uvFault_extends _ _ _)
  · exact Extends.of_trace_eq _ _ rfl

theorem write_extends (A : Abi) (sink : Handler) (hq : QuietHandler sink) (data : List Nat)
    (fds : List Int) (w : World) : Extends w (USocketWrap._write A sink data fds w).2 := by
  unfold USocketWrap._write
  split
  · exact Extends.of_trace_eq _ _ rfl
  · rename_i control _
    have h0 : Extends w ((w.log (.send w.handle data control)).sys .sendmsg w.handle).2 :=
      (Extends.log_ext w _ (by rfl)).trans_ext (Extends.sys_ext _ _ _)
    simp only
    split
    · exact h0
    · split
      · exact h0
      · exact h0.trans_ext ((Extends.of_trace_eq _ _ rfl).trans_ext (setupPoll_extends sink hq _))

theorem shutdown_extends (sink : Handler) (hq : QuietHandler sink) (w : World) :
    Extends w (USocketWrap._shutdown sink w) := by
  unfold USocketWrap._shutdown
  exact (Extends.log_ext w (.sys .shutdown w.handle) (by rfl)).trans_ext
    ((Extends.of_trace_eq _ _ rfl).trans_ext (setupPoll_extends sink hq _))

theorem adopt_extends (sink : Handler) (hq : QuietHandler sink) (fd : Int) (w : World) :
    Extends w (USocketWrap._adopt sink fd w) := by
  unfold USocketWrap._adopt
  simp only
  have h0 : Extends w
      (({ w with handle := fd, paused := true, corked := false } : World).sys .uv_poll_init fd).2 :=
    (Extends.of_trace_eq w _ rfl).trans_ext (Extends.sys_ext _ _ _)
  split
  · exact (h0.trans_ext (Extends.of_trace_eq _ _ rfl)).trans_ext
      (callback_extends sink hq _ (by rfl) _)
  · exact h0.trans_ext (Extends.of_trace_eq _ _ rfl)

theorem runCall_extends (A : Abi) (sink : Handler) (hq : QuietHandler sink) (c : Call)
    (w : World) : Extends w (runCall A sink c w) := by
  cases c with
  | pause => exact pause_extends sink hq w
  | resume => exact resume_extends sink hq w
  | close => exact close_extends sink hq w
  | write data fds =>
    cases hr : w.role with
    | server =>
      have h : runCall A sink (.write data fds) w = w := by simp [runCall, hr]
      rw [h]
      exact Extends.refl_ext w
    | peer =>
      have h : runCall A sink (.write data fds) w = (USocketWrap._write A sink data fds w).2 := by
        simp [runCall, hr]
      rw [h]
      exact write_extends A sink hq data fds w
  | shutdown =>
    cases hr : w.role with
    | server =>
      have h : runCall A sink .shutdown w = w := by simp [runCall, hr]
      rw [h]
      exact Extends.refl_ext w
    | peer =>
      have h : runCall A sink .shutdown w = USocketWrap._shutdown sink w := by
        simp [runCall, hr]
      rw [h]
      exact shutdown_extends sink hq w
  | adopt fd =>
    cases hr : w.role with
    | server =>
      have h : runCall A sink (.adopt fd) w = w := by simp [runCall, hr]
      rw [h]
      exact Extends.refl_ext w
    | peer =>
      have h : runCall A sink (.adopt fd) w = USocketWrap._adopt sink fd w := by
        simp [runCall, hr]
      rw [h]
      exact adopt_extends sink hq fd w

theorem foldl_runCall_extends (A : Abi) (sink : Handler) (hq : QuietHandler sink)
    (l : List Call) : ∀ w : World, Extends w (l.foldl (fun acc c => runCall A sink c acc) w) := by
  induction l with
  | nil => intro w; exact Extends.refl_ext w
  | cons c l ih =>
    intro w
    exact (runCall_extends A sink hq c w).trans_ext (ih _)

/-- Whatever its script and depth, a handler that calls back into the object adds no
`accept` and no `data` event. -/
theorem reenter_quiet (A : Abi) (script : World → Event → List Call) :
    ∀ depth, QuietHandler (reenter A script depth) := by
  intro depth
  induction depth with
  | zero => intro e w; exact Extends.refl_ext w
  | succ n ih =>
    intro e w
    unfold reenter
    exact foldl_runCall_extends A _ ih _ w

theorem interest_paused (w : World) (hp : w.paused = true) : interest w &&& UV_READABLE = 0 := by
  unfold interest
  cases h : pollWrites w <;> simp [hp, UV_READABLE, UV_WRITABLE]

/-- C6. On a server or peer whose paused flag is set, a readiness notification with any
non-negative status and any event mask, whatever the environment would answer and
whatever the handler does, runs neither loop for a single iteration: the server handler
returns the state untouched, the read loop returns at once, and what the peer handler
appends to the history contains no `accept` and no `data` event; the interest computed
for a paused socket never contains `UV_READABLE`. -/
theorem paused_suppresses_events (A : Abi) (script : World → Event → List Call)
    (depth fuel : Nat) (status : Int) (events : Nat) (w : World)
    (hp : w.paused = true) (hst : 0 ≤ status) :
    UServerWrap.poll A (reenter A script depth) fuel status events w = some w
    ∧ USocketWrap.readLoop A (reenter A script depth) fuel w = some (true, w)
    ∧ (∃ w2, USocketWrap.poll A (reenter A script depth) fuel status events w = some w2
        ∧ Extends w w2
        ∧ (∀ e, Effect.callback e ∈ w2.trace.drop w.trace.length → e.isDelivery = false))
    ∧ interest w &&& UV_READABLE = 0 := by
  have hst2 : ¬ status < 0 := by omega
  have hq := reenter_quiet A script depth
  have hacc : acceptLoop A (reenter A script depth) fuel w = some w := by
    cases fuel <;> simp [acceptLoop, hp]
  have hread : USocketWrap.readLoop A (reenter A script depth) fuel w = some (true, w) := by
    cases fuel <;> simp [USocketWrap.readLoop, hp]
  have hpoll : ∃ w2, USocketWrap.poll A (reenter A script depth) fuel status events w = some w2
      ∧ Extends w w2 := by
    unfold USocketWrap.poll
    simp only [hst2, if_false, hread, ite_self]
    split
    · exact ⟨_, rfl, (Extends.of_trace_eq w { w with corked := false } rfl).trans_ext
        ((setupPoll_extends _ hq _).trans_ext (callback_extends _ hq .drain rfl _))⟩
    · exact ⟨_, rfl, Extends.refl_ext w⟩
  refine ⟨by simp [UServerWrap.poll, hst2, hacc], hread, ?_, interest_paused w hp⟩
  obtain ⟨w2, h2, hext⟩ := hpoll
  refine ⟨w2, h2, hext, ?_⟩
  obtain ⟨ext, htr, hquiet⟩ := hext
  intro e he
  rw [htr, List.drop_left] at he
  simpa [Effect.delivers] using hquiet _ he

theorem paused_suppresses_events_witness :
    UServerWrap.poll linux64 (reenter linux64 (fun _ _ => [.resume]) 2) 5 0 UV_READABLE
        { UWrap.new .server true false [{ ret := 7 }] with handle := 4 }
      = some { UWrap.new .server true false [{ ret := 7 }] with handle := 4 } :=
  (paused_suppresses_events linux64 (fun _ _ => [.resume]) 2 5 0 UV_READABLE
    { UWrap.new .server true false [{ ret := 7 }] with handle := 4 } rfl (by decide)).1

/-! ## Cork and drain: theorems -/

end uwrap
